import Mathlib

/-!
Shallow embedding of the movie report pipeline (src/movie_report_pipeline.py,
src/tmdb_client.py, src/report_io.py, src/schemas.py) and verification of the
spec claims about it.

Python values flowing through the pipeline (parsed JSON documents) are embedded
as the inductive `PyVal`; Python floats are modelled as rationals.  Code that
can raise is embedded in `Except Unit`; Python's `None`-or-value results are
`Option`.  Python's stable in-place `list.sort` / `sorted` are modelled with
Mathlib's stable `List.insertionSort` (any stable sort denotes the same
function).  The thread pool's nondeterministic completion order is an explicit
argument: a permutation of the submitted identifiers, consumed sequentially by
the single collecting loop, exactly as `as_completed` hands futures to `main`.
-/

/-- A parsed Python/JSON value as handled by the pipeline. -/
inductive PyVal : Type where
  | none
  | bool (b : Bool)
  | int (n : Int)
  | float (q : ℚ)
  | str (s : String)
  | list (xs : List PyVal)
  | dict (kvs : List (String × PyVal))

/-- Python truthiness (`bool(v)`) for the embedded values. -/
def pyTruthy : PyVal → Bool
  | .none => false
  | .bool b => b
  | .int n => n != 0
  | .float q => q != 0
  | .str s => !s.isEmpty
  | .list xs => !xs.isEmpty
  | .dict kvs => !kvs.isEmpty

/-- Truthiness of an `Optional` value: `not x` in Python is true for `None`
and for falsy values alike (the `if not api_data:` guards). -/
def pyFalsy : Option PyVal → Bool
  | Option.none => true
  | some v => !pyTruthy v

mutual

/-- Python `str(v)`.  Scalars are rendered as Python renders them; containers
render their elements with `repr`, as Python does. -/
def pyStr : PyVal → String
  | .none => "None"
  | .bool b => cond b "True" "False"
  | .int n => toString n
  | .float q => toString q
  | .str s => s
  | .list xs => "[" ++ String.intercalate ", " (pyReprList xs) ++ "]"
  | .dict kvs => "\x7b" ++ String.intercalate ", " (pyReprPairs kvs) ++ "\x7d"

/-- Python `repr(v)` (strings gain quotes; other cases agree with `str`). -/
def pyRepr : PyVal → String
  | .str s => "\x27" ++ s ++ "\x27"
  | .none => "None"
  | .bool b => cond b "True" "False"
  | .int n => toString n
  | .float q => toString q
  | .list xs => "[" ++ String.intercalate ", " (pyReprList xs) ++ "]"
  | .dict kvs => "\x7b" ++ String.intercalate ", " (pyReprPairs kvs) ++ "\x7d"

/-- `repr` of each element of a list value. -/
def pyReprList : List PyVal → List String
  | [] => []
  | v :: vs => pyRepr v :: pyReprList vs

/-- `repr` of each key/value pair of a dict value. -/
def pyReprPairs : List (String × PyVal) → List String
  | [] => []
  | (k, v) :: kvs => ("\x27" ++ k ++ "\x27: " ++ pyRepr v) :: pyReprPairs kvs

end

/-- Digit run to a natural number (helper for `parseFloat?`). -/
def natOfDigits (s : String) : Nat :=
  s.toList.foldl (fun a c => a * 10 + (c.toNat - 48)) 0

/-- Whether every character of `s` is a decimal digit. -/
def allDigits (s : String) : Bool :=
  s.toList.all Char.isDigit

/-- Python `float(s)` on a string: surrounding whitespace stripped, optional
sign, decimal digits with an optional fractional part.  (Python additionally
accepts exponents, `inf` and `nan`; no claim depends on those forms, which
here parse to `Option.none` like any other invalid literal.) -/
def parseFloat? (s : String) : Option ℚ :=
  let t := s.trim
  let sgn : ℚ := if t.startsWith "-" then -1 else 1
  let body := if t.startsWith "-" || t.startsWith "+" then t.drop 1 else t
  match body.splitOn "." with
  | [ip] =>
    if !ip.isEmpty && allDigits ip then some (sgn * natOfDigits ip) else Option.none
  | [ip, fp] =>
    if (!ip.isEmpty || !fp.isEmpty) && allDigits ip && allDigits fp then
      some (sgn * ((natOfDigits ip : ℚ) + (natOfDigits fp : ℚ) / (10 : ℚ) ^ fp.length))
    else Option.none
  | _ => Option.none

/-- Python `float(v)` coercion on a non-`None` value; `ValueError` and
`TypeError` (both caught by the source) are `Option.none`. -/
def pyFloat? : PyVal → Option ℚ
  | .int n => some (n : ℚ)
  | .float q => some q
  | .bool b => some (cond b 1 0)
  | .str s => parseFloat? s
  | _ => Option.none

/-- Python `d.get(k)` on a dict value embedded as an association list. -/
def dictGet (kvs : List (String × PyVal)) (k : String) : Option PyVal :=
  (kvs.find? (fun kv => kv.1 == k)).map (fun kv => kv.2)

/-- Python iteration over a value (`for g in raw_genres`): lists yield their
elements, strings their one-character substrings, dicts their keys; any other
value raises `TypeError`. -/
def pyIter : PyVal → Except Unit (List PyVal)
  | .list xs => .ok xs
  | .str s => .ok (s.toList.map (fun c => .str (String.singleton c)))
  | .dict kvs => .ok (kvs.map (fun kv => PyVal.str kv.1))
  | _ => .error ()

/-- MovieRow from src/schemas.py. -/
structure MovieRow where
  id : Int
  title : String
  vote_average : Option ℚ
  genres : List String
  is_action : Bool
deriving Repr, DecidableEq

instance : DecidableRel (fun a b : MovieRow => a.id ≤ b.id) :=
  fun a b => Int.decLe a.id b.id

instance : IsTotal MovieRow (fun a b => a.id ≤ b.id) :=
  ⟨fun a b => Int.le_total a.id b.id⟩

instance : IsTrans MovieRow (fun a b => a.id ≤ b.id) :=
  ⟨fun _ _ _ h₁ h₂ => le_trans h₁ h₂⟩

/-- The row `make_movie_row` builds when `api_data` is absent or falsy
(src/movie_report_pipeline.py line 40). -/
def defaultRow (movie_id : Int) : MovieRow :=
  { id := movie_id, title := "", vote_average := Option.none, genres := [],
    is_action := false }

/-- Line 42: `str(api_data.get("title", ""))`. -/
def extractTitle (kvs : List (String × PyVal)) : String :=
  pyStr ((dictGet kvs "title").getD (PyVal.str ""))

/-- Lines 44-48: `vote_average` fetched with `.get`, coerced with `float`
inside `try`, `None` on a missing field, a JSON null, or a coercion error. -/
def extractVote (kvs : List (String × PyVal)) : Option ℚ :=
  match dictGet kvs "vote_average" with
  | Option.none => Option.none
  | some PyVal.none => Option.none
  | some v => pyFloat? v

/-- Lines 51-55: the genre-name comprehension, one entry at a time: kept iff
`g` is a dict whose `name` value is truthy; the kept value is
`str(g["name"]).strip()`. -/
def genreName? (g : PyVal) : Option String :=
  match g with
  | .dict gkvs =>
    let nv := (dictGet gkvs "name").getD PyVal.none
    if pyTruthy nv then some (pyStr nv).trim else Option.none
  | _ => Option.none

/-- Lines 51-58: collect the genre names, then `genre_names.sort()` (Python's
stable sort; modelled with the stable `insertionSort`). -/
def sortedGenreNames (gs : List PyVal) : List String :=
  (gs.filterMap genreName?).insertionSort (· ≤ ·)

/-- `make_movie_row` (src/movie_report_pipeline.py lines 38-68).  Exceptions
the source would raise — iterating a non-iterable `genres` value, attribute
access on a truthy non-dict document — are `Except.error`. -/
def makeMovieRow (movie_id : Int) (api_data : Option PyVal) :
    Except Unit MovieRow :=
  if pyFalsy api_data then .ok (defaultRow movie_id)
  else
    match api_data with
    | some (PyVal.dict kvs) =>
      match pyIter ((dictGet kvs "genres").getD (PyVal.list [])) with
      | .error e => .error e
      | .ok gs =>
        .ok { id := movie_id, title := extractTitle kvs,
              vote_average := extractVote kvs,
              genres := sortedGenreNames gs,
              is_action := (sortedGenreNames gs).contains "Action" }
    | _ => .error ()

/-- `get_movie_data` (src/movie_report_pipeline.py lines 70-77): fetch, then
route a falsy/absent result to the failure side, else transform. -/
def getMovieData (fetch : Int → Option PyVal) (movie_id : Int) :
    Except Unit (Option MovieRow × Int) :=
  let api_data := fetch movie_id
  if pyFalsy api_data then .ok (Option.none, movie_id)
  else (makeMovieRow movie_id api_data).map (fun row => (some row, movie_id))

/-- The result-collection loop of `main` (lines 100-105): one completed task
per element of the completion order, rows and failed ids appended by the
single collecting loop in completion order.  A task exception re-raised by
`future.result()` aborts the loop (propagates). -/
def collectResults (fetch : Int → Option PyVal) :
    List Int → Except Unit (List MovieRow × List Int)
  | [] => .ok ([], [])
  | mid :: rest =>
    match getMovieData fetch mid with
    | .error e => .error e
    | .ok (some row, _) =>
      (collectResults fetch rest).map (fun p => (row :: p.1, p.2))
    | .ok (Option.none, i) =>
      (collectResults fetch rest).map (fun p => (p.1, i :: p.2))

/-- Lines 108-109 of `main`: `movie_rows.sort(key=lambda row: row.id)` run
only when the list is nonempty (stable sort by id). -/
def sortRows (rows : List MovieRow) : List MovieRow :=
  if rows.isEmpty then rows
  else rows.insertionSort (fun a b => a.id ≤ b.id)

/-- `write_failed_ids` (src/report_io.py lines 159-179), modelled as the list
of CSV records it writes: `Option.none` when both inputs are empty and the
function returns without writing.  A skipped row is `(raw_value, row_number,
reason)` as produced by `read_movie_ids_with_skips`. -/
def writeFailedIds (failed_ids : List Int)
    (skipped_rows : List (String × Nat × String)) :
    Option (List (List String)) :=
  if failed_ids.isEmpty && skipped_rows.isEmpty then Option.none
  else
    some (["ID", "Reason", "RowNumber"] ::
      ((failed_ids.insertionSort (· ≤ ·)).map
          (fun mid => [toString mid, "fetch-failed", ""]) ++
        skipped_rows.map (fun sk => [sk.1, sk.2.2, toString sk.2.1])))

/-- The observable summary logged at the end of a successful `main` run
(lines 119-128). -/
structure RunSummary where
  processed : Nat
  failed : Nat
  skipped : Nat
  excelWritten : Bool
  elapsed : ℚ
  rate : ℚ
deriving Repr, DecidableEq

/-- The tail of `main` (lines 89-128) after the ids and skips are read: early
return with no summary when no valid ids were found; otherwise dispatch over
the completion order, sort-and-write the rows when nonempty, and log the
summary.  `.ok Option.none` is the early return (no summary logged);
`.error` is a crash from a re-raised task exception. -/
def mainRun (movie_ids : List Int)
    (skipped_rows : List (String × Nat × String))
    (fetch : Int → Option PyVal) (completionOrder : List Int)
    (elapsedRaw : ℚ) : Except Unit (Option RunSummary) :=
  if movie_ids.isEmpty then .ok Option.none
  else
    match collectResults fetch completionOrder with
    | .error e => .error e
    | .ok (movie_rows, failed_ids) =>
      let elapsed_seconds := max elapsedRaw 0
      .ok (some
        { processed := movie_rows.length
          failed := failed_ids.length
          skipped := skipped_rows.length
          excelWritten := !movie_rows.isEmpty
          elapsed := elapsed_seconds
          rate := if 0 < elapsed_seconds then
              (movie_ids.length : ℚ) / elapsed_seconds else 0 })

/-- Observable outcome of one HTTP attempt inside `fetch_movie_details`:
a response with a status code (and, for 200, the parsed body), or a
`requests.RequestException`. -/
inductive AttemptOutcome where
  | status (code : Nat) (body : PyVal)
  | netError

/-- The transient status set of src/tmdb_client.py line 44. -/
def transientStatuses : List Nat := [429, 500, 502, 503, 504]

/-- `_wait_with_exponential_backoff` (lines 66-70): the slept delay for a
given attempt number and jitter draw. -/
def backoffDelay (initialBackoff jitter : ℚ) (attemptNumber : Nat) : ℚ :=
  initialBackoff * 2 ^ attemptNumber + jitter

/-- The retry loop of `fetch_movie_details` (lines 29-64).  `k` is
`current_attempt`; `fuel` is the number of loop iterations left (the for-loop
runs `maxRetry + 1` of them).  `outcomes n` is what attempt `n` observes and
`jitter n` the `random.uniform(0, 0.5)` draw of the backoff slept at attempt
`n`.  Returns (result, attempts made, backoff delays slept in order). -/
def fetchAux (maxRetry : Nat) (initialBackoff : ℚ)
    (outcomes : Nat → AttemptOutcome) (jitter : Nat → ℚ) :
    Nat → Nat → Option PyVal × Nat × List ℚ
  | _, 0 => (Option.none, 0, [])
  | k, fuel + 1 =>
    match outcomes k with
    | .status code body =>
      if code = 200 then (some body, 1, [])
      else if code = 404 then (Option.none, 1, [])
      else if code ∈ transientStatuses then
        let rest := fetchAux maxRetry initialBackoff outcomes jitter (k + 1) fuel
        (rest.1, rest.2.1 + 1, backoffDelay initialBackoff (jitter k) k :: rest.2.2)
      else (Option.none, 1, [])
    | .netError =>
      if k = maxRetry then (Option.none, 1, [])
      else
        let rest := fetchAux maxRetry initialBackoff outcomes jitter (k + 1) fuel
        (rest.1, rest.2.1 + 1, backoffDelay initialBackoff (jitter k) k :: rest.2.2)

/-- `fetch_movie_details` for one identifier, abstracted over the per-attempt
outcomes.  The source returns the parsed body on 200, `None` on 404 or an
unrecoverable status, retries (with a backoff sleep) on a transient status or
a network error, and returns `None` when the `maxRetry + 1` loop iterations
are exhausted — it never raises on these paths. -/
def fetchMovieDetails (maxRetry : Nat) (initialBackoff : ℚ)
    (outcomes : Nat → AttemptOutcome) (jitter : Nat → ℚ) :
    Option PyVal × Nat × List ℚ :=
  fetchAux maxRetry initialBackoff outcomes jitter 0 (maxRetry + 1)

/-! ### Fetcher lemmas -/

/-- A transient status is none of 200 and 404. -/
theorem transient_ne (c : Nat) (h : c ∈ transientStatuses) : c ≠ 200 ∧ c ≠ 404 := by
  simp only [transientStatuses, List.mem_cons, List.not_mem_nil, or_false] at h
  rcases h with rfl | rfl | rfl | rfl | rfl <;> exact ⟨by decide, by decide⟩

/-- Under persistently transient statuses the loop consumes all its fuel and
returns absence, making one attempt per fuel unit. -/
theorem fetchAux_transient (maxRetry : Nat) (initialBackoff : ℚ)
    (outcomes : Nat → AttemptOutcome) (jitter : Nat → ℚ)
    (h : ∀ n, ∃ c b, outcomes n = .status c b ∧ c ∈ transientStatuses) :
    ∀ fuel k,
      (fetchAux maxRetry initialBackoff outcomes jitter k fuel).1 = Option.none ∧
      (fetchAux maxRetry initialBackoff outcomes jitter k fuel).2.1 = fuel := by
  intro fuel
  induction fuel with
  | zero => intro k; exact ⟨rfl, rfl⟩
  | succ n ih =>
    intro k
    obtain ⟨c, b, hc, htr⟩ := h k
    obtain ⟨h200, h404⟩ := transient_ne c htr
    have hrest := ih (k + 1)
    simp only [fetchAux, hc]
    rw [if_neg h200, if_neg h404, if_pos htr]
    exact ⟨hrest.1, by simp [hrest.2]⟩

/-- The recorded sleep list, described positionally starting at attempt `k`. -/
def SleepSpecFrom (initialBackoff : ℚ) (jitter : Nat → ℚ) : Nat → List ℚ → Prop
  | _, [] => True
  | k, d :: rest =>
    d = initialBackoff * 2 ^ k + jitter k ∧
    SleepSpecFrom initialBackoff jitter (k + 1) rest

/-- Every sleep the loop records from attempt `k` on follows the exponential
schedule with the attempt's jitter draw. -/
theorem fetchAux_sleepSpec (maxRetry : Nat) (initialBackoff : ℚ)
    (outcomes : Nat → AttemptOutcome) (jitter : Nat → ℚ) :
    ∀ fuel k,
      SleepSpecFrom initialBackoff jitter k
        (fetchAux maxRetry initialBackoff outcomes jitter k fuel).2.2 := by
  intro fuel
  induction fuel with
  | zero => intro k; simp [fetchAux, SleepSpecFrom]
  | succ n ih =>
    intro k
    cases ho : outcomes k with
    | status code body =>
      by_cases h200 : code = 200
      · simp [fetchAux, ho, h200, SleepSpecFrom]
      · by_cases h404 : code = 404
        · simp [fetchAux, ho, h200, h404, SleepSpecFrom]
        · by_cases htr : code ∈ transientStatuses
          · simp only [fetchAux, ho]
            rw [if_neg h200, if_neg h404, if_pos htr]
            exact ⟨by simp [backoffDelay], ih (k + 1)⟩
          · simp [fetchAux, ho, h200, h404, htr, SleepSpecFrom]
    | netError =>
      by_cases hk : k = maxRetry
      · subst hk
        simp [fetchAux, ho, SleepSpecFrom]
      · simp only [fetchAux, ho]
        rw [if_neg hk]
        exact ⟨by simp [backoffDelay], ih (k + 1)⟩

/-- Reading a positional sleep description off at an index. -/
theorem sleepSpecFrom_get (initialBackoff : ℚ) (jitter : Nat → ℚ) :
    ∀ (l : List ℚ) (k j : Nat) (hj : j < l.length),
      SleepSpecFrom initialBackoff jitter k l →
      l.get ⟨j, hj⟩ = initialBackoff * 2 ^ (k + j) + jitter (k + j) := by
  intro l
  induction l with
  | nil => intro k j hj _; simp at hj
  | cons d rest ih =>
    intro k j hj hs
    cases j with
    | zero => simpa using hs.1
    | succ m =>
      have hm : m < rest.length := by simpa using Nat.lt_of_succ_lt_succ hj
      have := ih (k + 1) m hm hs.2
      simp only [List.get_cons_succ]
      rw [this]
      ring_nf

/-! ### Dispatcher lemmas -/

/-- Every `ok` branch of `make_movie_row` carries the identifier it was
called with. -/
theorem makeMovieRow_id (movie_id : Int) (api_data : Option PyVal)
    (row : MovieRow) (h : makeMovieRow movie_id api_data = .ok row) :
    row.id = movie_id := by
  unfold makeMovieRow at h
  by_cases hf : pyFalsy api_data = true
  · rw [if_pos hf] at h
    cases h
    rfl
  · rw [if_neg hf] at h
    cases api_data with
    | none => exact absurd rfl hf
    | some v =>
      cases v with
      | dict kvs =>
        dsimp only at h
        cases hI : pyIter ((dictGet kvs "genres").getD (PyVal.list [])) with
        | error e => rw [hI] at h; exact Except.noConfusion h
        | ok gs =>
          rw [hI] at h
          cases h
          rfl
      | none => exact Except.noConfusion h
      | bool b => exact Except.noConfusion h
      | int n => exact Except.noConfusion h
      | float q => exact Except.noConfusion h
      | str s => exact Except.noConfusion h
      | list xs => exact Except.noConfusion h

/-- `get_movie_data` always returns the identifier as the second component. -/
theorem getMovieData_snd (fetch : Int → Option PyVal) (i : Int)
    (p : Option MovieRow × Int) (h : getMovieData fetch i = .ok p) :
    p.2 = i := by
  simp only [getMovieData] at h
  by_cases hf : pyFalsy (fetch i) = true
  · rw [if_pos hf] at h
    cases h
    rfl
  · rw [if_neg hf] at h
    cases hm : makeMovieRow i (fetch i) with
    | error e => rw [hm] at h; cases h
    | ok row => rw [hm] at h; cases h; rfl

/-- A successful `get_movie_data` row carries the task's identifier. -/
theorem getMovieData_row_id (fetch : Int → Option PyVal) (i : Int)
    (r : MovieRow) (j : Int) (h : getMovieData fetch i = .ok (some r, j)) :
    r.id = i := by
  simp only [getMovieData] at h
  by_cases hf : pyFalsy (fetch i) = true
  · rw [if_pos hf] at h
    simp at h
  · rw [if_neg hf] at h
    cases hm : makeMovieRow i (fetch i) with
    | error e => rw [hm] at h; cases h
    | ok row =>
      rw [hm] at h
      simp only [Except.map, Except.ok.injEq, Prod.mk.injEq, Option.some.injEq] at h
      rw [← h.1]
      exact makeMovieRow_id i (fetch i) row hm

/-- The successful-row view of one task. -/
def taskRow? (fetch : Int → Option PyVal) (i : Int) : Option MovieRow :=
  match getMovieData fetch i with
  | .ok (some row, _) => some row
  | _ => Option.none

/-- Whether one task reported its identifier as failed. -/
def taskFailed (fetch : Int → Option PyVal) (i : Int) : Bool :=
  match getMovieData fetch i with
  | .ok (Option.none, _) => true
  | _ => false

/-- A task's row carries the task's identifier. -/
theorem taskRow_id (fetch : Int → Option PyVal) (i : Int) (r : MovieRow)
    (h : taskRow? fetch i = some r) : r.id = i := by
  unfold taskRow? at h
  cases hg : getMovieData fetch i with
  | error e => rw [hg] at h; exact Option.noConfusion h
  | ok p =>
    obtain ⟨orow, j⟩ := p
    rw [hg] at h
    cases orow with
    | none => exact Option.noConfusion h
    | some row =>
      have hrr : row = r := by dsimp only at h; exact Option.some.inj h
      rw [← hrr]
      exact getMovieData_row_id fetch i row j hg

/-- A task's row view determines the full task result. -/
theorem taskRow_eq_ok (fetch : Int → Option PyVal) (i : Int) (r : MovieRow)
    (h : taskRow? fetch i = some r) : getMovieData fetch i = .ok (some r, i) := by
  unfold taskRow? at h
  cases hg : getMovieData fetch i with
  | error e => rw [hg] at h; exact Option.noConfusion h
  | ok p =>
    obtain ⟨orow, j⟩ := p
    have hj : j = i := by simpa using getMovieData_snd fetch i _ hg
    rw [hg] at h
    cases orow with
    | none => exact Option.noConfusion h
    | some row =>
      have hrr : row = r := by dsimp only at h; exact Option.some.inj h
      rw [hj, hrr]

/-- What the collection loop produces when it completes: the rows are the
successful task results in completion order, the failed ids are the failed
tasks in completion order, and every encountered task completed normally. -/
theorem collectResults_ok_spec (fetch : Int → Option PyVal) :
    ∀ (order : List Int) (rows : List MovieRow) (failed : List Int),
      collectResults fetch order = .ok (rows, failed) →
      rows = order.filterMap (taskRow? fetch) ∧
      failed = order.filter (taskFailed fetch) ∧
      ∀ i ∈ order, ∃ v, getMovieData fetch i = .ok v := by
  intro order
  induction order with
  | nil =>
    intro rows failed hc
    simp only [collectResults, Except.ok.injEq, Prod.mk.injEq] at hc
    refine ⟨hc.1.symm, hc.2.symm, by simp⟩
  | cons mid rest ih =>
    intro rows failed hc
    cases hg : getMovieData fetch mid with
    | error e =>
      simp [collectResults, hg] at hc
    | ok v =>
      obtain ⟨orow, j⟩ := v
      have hj : j = mid := by simpa using getMovieData_snd fetch mid _ hg
      rw [hj] at hg
      cases orow with
      | none =>
        simp only [collectResults, hg] at hc
        cases hr : collectResults fetch rest with
        | error e => rw [hr] at hc; cases hc
        | ok pr =>
          obtain ⟨r0, f0⟩ := pr
          rw [hr] at hc
          simp only [Except.map, Except.ok.injEq, Prod.mk.injEq] at hc
          obtain ⟨hrows, hfail⟩ := hc
          obtain ⟨hs1, hs2, hall⟩ := ih r0 f0 hr
          have htr : taskRow? fetch mid = Option.none := by
            simp [taskRow?, hg]
          have htf : taskFailed fetch mid = true := by
            simp [taskFailed, hg]
          refine ⟨?_, ?_, ?_⟩
          · rw [← hrows, List.filterMap_cons, htr, hs1]
          · rw [← hfail, List.filter_cons, htf, hs2]
            simp
          · intro i hi
            rcases List.mem_cons.mp hi with rfl | hi2
            · exact ⟨_, hg⟩
            · exact hall i hi2
      | some row =>
        simp only [collectResults, hg] at hc
        cases hr : collectResults fetch rest with
        | error e => rw [hr] at hc; cases hc
        | ok pr =>
          obtain ⟨r0, f0⟩ := pr
          rw [hr] at hc
          simp only [Except.map, Except.ok.injEq, Prod.mk.injEq] at hc
          obtain ⟨hrows, hfail⟩ := hc
          obtain ⟨hs1, hs2, hall⟩ := ih r0 f0 hr
          have htr : taskRow? fetch mid = some row := by
            simp [taskRow?, hg]
          have htf : taskFailed fetch mid = false := by
            simp [taskFailed, hg]
          refine ⟨?_, ?_, ?_⟩
          · rw [← hrows, List.filterMap_cons, htr, hs1]
          · rw [← hfail, List.filter_cons, htf, hs2]
            simp
          · intro i hi
            rcases List.mem_cons.mp hi with rfl | hi2
            · exact ⟨_, hg⟩
            · exact hall i hi2

/-- Mapping the id field over the successful rows filters the completion
order down to the successfully fetched identifiers. -/
theorem map_id_filterMap_taskRow (fetch : Int → Option PyVal)
    (order : List Int) :
    (order.filterMap (taskRow? fetch)).map MovieRow.id =
      order.filter (fun i => (taskRow? fetch i).isSome) := by
  induction order with
  | nil => rfl
  | cons i rest ih =>
    cases h : taskRow? fetch i with
    | none => simp [List.filterMap_cons, List.filter_cons, h, ih]
    | some row =>
      have hid : row.id = i := taskRow_id fetch i row h
      simp [List.filterMap_cons, List.filter_cons, h, ih, hid]

/-- The success filter and the failure filter partition the completion order
when every task completed normally. -/
theorem filters_partition_perm (fetch : Int → Option PyVal)
    (order : List Int)
    (hall : ∀ i ∈ order, ∃ v, getMovieData fetch i = .ok v) :
    (order.filter (fun i => (taskRow? fetch i).isSome) ++
        order.filter (taskFailed fetch)).Perm order := by
  have hco : ∀ i ∈ order, taskFailed fetch i = !(taskRow? fetch i).isSome := by
    intro i hi
    obtain ⟨⟨orow, j⟩, hv⟩ := hall i hi
    cases orow <;> simp [taskFailed, taskRow?, hv]
  rw [List.filter_congr hco]
  exact List.filter_append_perm _ order

/-- The guarded in-place sort equals the plain stable sort. -/
theorem sortRows_eq (rows : List MovieRow) :
    sortRows rows = rows.insertionSort (fun a b => a.id ≤ b.id) := by
  cases rows <;> simp [sortRows]

/-- Two sorted-by-id permutations whose cross-heads with equal ids are equal
elements are themselves equal lists. -/
theorem eq_of_perm_of_sorted_of_keyUnique (l₁ : List MovieRow) :
    ∀ l₂ : List MovieRow, l₁.Perm l₂ →
      l₁.Sorted (fun a b => a.id ≤ b.id) →
      l₂.Sorted (fun a b => a.id ≤ b.id) →
      (∀ a ∈ l₁, ∀ b ∈ l₂, a.id = b.id → a = b) → l₁ = l₂ := by
  induction l₁ with
  | nil =>
    intro l₂ hp _ _ _
    exact hp.nil_eq
  | cons a t₁ ih =>
    intro l₂ hp hs₁ hs₂ hkey
    cases l₂ with
    | nil => exact absurd hp.eq_nil (by simp)
    | cons b t₂ =>
      have hab : a = b := by
        have haIn : a ∈ b :: t₂ := hp.mem_iff.mp (List.mem_cons_self a t₁)
        have hbIn : b ∈ a :: t₁ := hp.mem_iff.mpr (List.mem_cons_self b t₂)
        rcases List.mem_cons.mp haIn with h | hA
        · exact h
        · rcases List.mem_cons.mp hbIn with h | hB
          · exact h.symm
          · have h1 : a.id ≤ b.id := List.rel_of_sorted_cons hs₁ b hB
            have h2 : b.id ≤ a.id := List.rel_of_sorted_cons hs₂ a hA
            exact hkey a (List.mem_cons_self a t₁) b (List.mem_cons_self b t₂)
              (le_antisymm h1 h2)
      subst hab
      have htail := ih t₂ hp.cons_inv hs₁.of_cons hs₂.of_cons
        (fun x hx y hy => hkey x (List.mem_cons_of_mem a hx) y
          (List.mem_cons_of_mem a hy))
      rw [htail]

/-! ### Claim C3 -/

/-- C3: for every configured retry budget N, an identifier whose every request
attempt receives a retryable transient HTTP status (e.g. 500) makes the
fetcher perform exactly N + 1 total attempts and then return absence — the
loop never raises on this path (absence is returned by construction). -/
theorem fetcher_exhausts_retry_budget (N : Nat) (initialBackoff : ℚ)
    (outcomes : Nat → AttemptOutcome) (jitter : Nat → ℚ)
    (h : ∀ n, ∃ c b, outcomes n = .status c b ∧ c ∈ transientStatuses) :
    (fetchMovieDetails N initialBackoff outcomes jitter).1 = Option.none ∧
    (fetchMovieDetails N initialBackoff outcomes jitter).2.1 = N + 1 :=
  fetchAux_transient N initialBackoff outcomes jitter h (N + 1) 0

/-- Witness for C3: every attempt answers 500; with the default budget of 3
retries the fetcher makes 4 attempts and returns absence. -/
theorem fetcher_exhausts_retry_budget_witness :
    (fetchMovieDetails 3 1 (fun _ => AttemptOutcome.status 500 PyVal.none)
        (fun _ => 0)).1 = Option.none ∧
    (fetchMovieDetails 3 1 (fun _ => AttemptOutcome.status 500 PyVal.none)
        (fun _ => 0)).2.1 = 3 + 1 :=
  fetcher_exhausts_retry_budget 3 1 _ _
    (fun _ => ⟨500, PyVal.none, rfl, by decide⟩)

/-! ### Claim C4 -/

/-- C4: an attempt that receives HTTP 404, or any unrecoverable status (other
than 200, 404 and the transient set), makes the fetcher return absence after
exactly that one attempt, with no retries and no backoff sleep. -/
theorem fetcher_shortcircuits (N : Nat) (initialBackoff : ℚ)
    (outcomes : Nat → AttemptOutcome) (jitter : Nat → ℚ) (c : Nat) (b : PyVal)
    (h0 : outcomes 0 = .status c b)
    (hc : c = 404 ∨ (c ≠ 200 ∧ c ≠ 404 ∧ c ∉ transientStatuses)) :
    fetchMovieDetails N initialBackoff outcomes jitter = (Option.none, 1, []) := by
  unfold fetchMovieDetails
  simp only [fetchAux, h0]
  rcases hc with rfl | ⟨h200, h404, htr⟩
  · rw [if_neg (by decide), if_pos rfl]
  · rw [if_neg h200, if_neg h404, if_neg htr]

/-- Witness for C4: a 404 on the first attempt with the default budget yields
absence after a single attempt and no sleeps. -/
theorem fetcher_shortcircuits_witness :
    fetchMovieDetails 3 1 (fun _ => AttemptOutcome.status 404 PyVal.none)
      (fun _ => 0) = (Option.none, 1, []) :=
  fetcher_shortcircuits 3 1 _ _ 404 PyVal.none rfl (Or.inl rfl)

/-! ### Claim C5 -/

/-- C5: the k-th backoff sleep of a fetch (k counted from 0 at the first
retry) lasts exactly `initialBackoff * 2 ^ k` plus that retry's jitter draw;
the draw is `random.uniform(0, 0.5)`, modelled as an oracle whose values lie
in [0, 1/2]. -/
theorem backoff_delay_schedule (N : Nat) (initialBackoff : ℚ)
    (outcomes : Nat → AttemptOutcome) (jitter : Nat → ℚ)
    (hdraw : ∀ n, 0 ≤ jitter n ∧ jitter n ≤ 1 / 2) (j : Nat)
    (hj : j < (fetchMovieDetails N initialBackoff outcomes jitter).2.2.length) :
    (fetchMovieDetails N initialBackoff outcomes jitter).2.2.get ⟨j, hj⟩ =
      initialBackoff * 2 ^ j + jitter j ∧
    0 ≤ jitter j ∧ jitter j ≤ 1 / 2 := by
  have hspec := fetchAux_sleepSpec N initialBackoff outcomes jitter (N + 1) 0
  have hget := sleepSpecFrom_get initialBackoff jitter _ 0 j hj hspec
  rw [Nat.zero_add] at hget
  exact ⟨hget, hdraw j⟩

/-- Witness for C5: two consecutive 500s with budget 1; the first recorded
sleep is `1 * 2 ^ 0` plus the (zero) jitter draw. -/
theorem backoff_delay_schedule_witness :
    (fetchMovieDetails 1 1 (fun _ => AttemptOutcome.status 500 PyVal.none)
        (fun _ => (0 : ℚ))).2.2.get ⟨0, by decide⟩ = 1 * 2 ^ 0 + (0 : ℚ) ∧
    (0 : ℚ) ≤ (0 : ℚ) ∧ (0 : ℚ) ≤ 1 / 2 :=
  backoff_delay_schedule 1 1 _ _ (fun _ => ⟨le_refl 0, by norm_num⟩) 0 (by decide)

/-! ### Claim C9 -/

/-- C9: when the dead-letter report is written, it is the header, then one
record per fetch-failed identifier — the identifiers sorted ascending, reason
"fetch-failed", empty row number — then one record per input-validation skip
in original encounter order, carrying its reason and row number. -/
theorem failure_report_layout (failed_ids : List Int)
    (skipped_rows : List (String × Nat × String)) (out : List (List String))
    (hw : writeFailedIds failed_ids skipped_rows = some out) :
    ∃ sortedFailed : List Int,
      sortedFailed.Perm failed_ids ∧ sortedFailed.Sorted (· ≤ ·) ∧
      out = ["ID", "Reason", "RowNumber"] ::
        (sortedFailed.map (fun mid => [toString mid, "fetch-failed", ""]) ++
          skipped_rows.map (fun sk => [sk.1, sk.2.2, toString sk.2.1])) := by
  refine ⟨failed_ids.insertionSort (· ≤ ·), List.perm_insertionSort _ _,
    List.sorted_insertionSort _ _, ?_⟩
  unfold writeFailedIds at hw
  by_cases h : (failed_ids.isEmpty && skipped_rows.isEmpty) = true
  · rw [if_pos h] at hw
    exact Option.noConfusion hw
  · rw [if_neg h] at hw
    exact (Option.some.inj hw).symm

/-- Witness for C9: fetch failures [7, 3] and one non-numeric skip produce the
header, then 3 and 7 in ascending order, then the skip record. -/
theorem failure_report_layout_witness :
    ∃ sortedFailed : List Int,
      sortedFailed.Perm [7, 3] ∧ sortedFailed.Sorted (· ≤ ·) ∧
      [["ID", "Reason", "RowNumber"], ["3", "fetch-failed", ""],
          ["7", "fetch-failed", ""], ["x", "non-numeric", "5"]] =
        ["ID", "Reason", "RowNumber"] ::
          (sortedFailed.map (fun mid => [toString mid, "fetch-failed", ""]) ++
            [("x", 5, "non-numeric")].map
              (fun sk => [sk.1, sk.2.2, toString sk.2.1])) :=
  failure_report_layout [7, 3] [("x", 5, "non-numeric")] _ rfl

/-! ### Claim C7 -/

/-- A dict value with at least one looked-up key is truthy, so the document
passes the falsiness guard. -/
theorem pyFalsy_dict_of_lookup (kvs : List (String × PyVal)) (k : String)
    (v : PyVal) (h : dictGet kvs k = some v) :
    pyFalsy (some (PyVal.dict kvs)) = false := by
  cases kvs with
  | nil => simp [dictGet] at h
  | cons a t => rfl

/-- How `make_movie_row` runs on a truthy document whose genres field is a
sequence. -/
theorem makeMovieRow_genres_list (movie_id : Int)
    (kvs : List (String × PyVal)) (gs : List PyVal)
    (hg : dictGet kvs "genres" = some (PyVal.list gs)) :
    makeMovieRow movie_id (some (PyVal.dict kvs)) =
      .ok { id := movie_id, title := extractTitle kvs,
            vote_average := extractVote kvs,
            genres := sortedGenreNames gs,
            is_action := (sortedGenreNames gs).contains "Action" } := by
  have hfal := pyFalsy_dict_of_lookup kvs "genres" _ hg
  unfold makeMovieRow
  rw [hfal]
  simp only [Bool.false_eq_true, if_false, hg, Option.getD_some, pyIter]

/-- C7: for every raw record containing a `genres` sequence, the transform
succeeds and its genre tags are lexicographically sorted ascending
(case-sensitively); the tags are a permutation of the extracted names, so
duplicates are retained; and the row is flagged iff the exact string
"Action" is an element of the sorted tags. -/
theorem genre_tags_sorted_and_flag (movie_id : Int)
    (kvs : List (String × PyVal)) (gs : List PyVal)
    (hg : dictGet kvs "genres" = some (PyVal.list gs)) :
    ∃ row, makeMovieRow movie_id (some (PyVal.dict kvs)) = .ok row ∧
      row.genres.Sorted (· ≤ ·) ∧
      (row.is_action = true ↔ "Action" ∈ row.genres) ∧
      row.genres.Perm (gs.filterMap genreName?) := by
  refine ⟨_, makeMovieRow_genres_list movie_id kvs gs hg, ?_, ?_, ?_⟩
  · exact List.sorted_insertionSort _ _
  · simp [sortedGenreNames, List.elem_iff]
  · exact List.perm_insertionSort _ _

/-- Witness for C7: a record whose genres are Adventure then Action. -/
theorem genre_tags_sorted_and_flag_witness :
    ∃ row,
      makeMovieRow 550 (some (PyVal.dict [("genres", PyVal.list
          [PyVal.dict [("name", PyVal.str "Adventure")],
            PyVal.dict [("name", PyVal.str "Action")]])])) = .ok row ∧
      row.genres.Sorted (· ≤ ·) ∧
      (row.is_action = true ↔ "Action" ∈ row.genres) ∧
      row.genres.Perm ([PyVal.dict [("name", PyVal.str "Adventure")],
          PyVal.dict [("name", PyVal.str "Action")]].filterMap genreName?) :=
  genre_tags_sorted_and_flag 550 _ _ rfl

/-! ### Claim C8 -/

/-- The input shapes named by the spec for the totality claim: an absent
record, the empty document, or a document whose genres field (when present)
is a sequence — which covers both the fully populated documents and the
documents with malformed entries inside the genres sequence. -/
def WellShaped (api_data : Option PyVal) : Prop :=
  api_data = Option.none ∨
  api_data = some (PyVal.dict []) ∨
  ∃ kvs, api_data = some (PyVal.dict kvs) ∧
    (dictGet kvs "genres" = Option.none ∨
      ∃ gs, dictGet kvs "genres" = some (PyVal.list gs))

/-- How `make_movie_row` runs on a truthy document with no genres field. -/
theorem makeMovieRow_no_genres (movie_id : Int)
    (kvs : List (String × PyVal)) (hne : kvs ≠ [])
    (hg : dictGet kvs "genres" = Option.none) :
    makeMovieRow movie_id (some (PyVal.dict kvs)) =
      .ok { id := movie_id, title := extractTitle kvs,
            vote_average := extractVote kvs, genres := [],
            is_action := false } := by
  have hfal : pyFalsy (some (PyVal.dict kvs)) = false := by
    cases kvs with
    | nil => exact absurd rfl hne
    | cons a t => rfl
  unfold makeMovieRow
  rw [hfal]
  simp only [Bool.false_eq_true, if_false, hg, Option.getD_none, pyIter]
  rfl

/-- C8: the transform is total on the stated input shapes — it never raises
and always returns a row carrying the identifier; an absent record and the
empty (falsy) document give the all-defaults row, and within a document each
missing field independently falls back to its default (empty title, absent
score, empty genre tags, unflagged). -/
theorem transform_total_on_shapes (movie_id : Int) (api_data : Option PyVal)
    (h : WellShaped api_data) :
    ∃ row, makeMovieRow movie_id api_data = .ok row ∧ row.id = movie_id ∧
      ((api_data = Option.none ∨ api_data = some (PyVal.dict [])) →
        row = defaultRow movie_id) ∧
      (∀ kvs, api_data = some (PyVal.dict kvs) →
        (dictGet kvs "title" = Option.none → row.title = "") ∧
        (dictGet kvs "vote_average" = Option.none →
          row.vote_average = Option.none) ∧
        (dictGet kvs "genres" = Option.none →
          row.genres = [] ∧ row.is_action = false)) := by
  rcases h with rfl | rfl | ⟨kvs, rfl, hgen⟩
  · exact ⟨defaultRow movie_id, rfl, rfl, fun _ => rfl, fun kvs hk => by cases hk⟩
  · refine ⟨defaultRow movie_id, rfl, rfl, fun _ => rfl, ?_⟩
    intro kvs hk
    cases hk
    exact ⟨fun _ => rfl, fun _ => rfl, fun _ => ⟨rfl, rfl⟩⟩
  · by_cases hne : kvs = []
    · subst hne
      refine ⟨defaultRow movie_id, rfl, rfl, fun _ => rfl, ?_⟩
      intro kvs hk
      cases hk
      exact ⟨fun _ => rfl, fun _ => rfl, fun _ => ⟨rfl, rfl⟩⟩
    · rcases hgen with hnone | ⟨gs, hsome⟩
      · refine ⟨_, makeMovieRow_no_genres movie_id kvs hne hnone, rfl, ?_, ?_⟩
        · intro hcase
          rcases hcase with habs | hempty
          · cases habs
          · simp only [Option.some.injEq, PyVal.dict.injEq] at hempty
            exact absurd hempty hne
        · intro kvs2 hk
          injection hk with hk2
          injection hk2 with hk3
          subst hk3
          refine ⟨?_, ?_, fun _ => ⟨rfl, rfl⟩⟩
          · intro ht
            simp [extractTitle, ht, pyStr]
          · intro hv
            simp [extractVote, hv]
      · refine ⟨_, makeMovieRow_genres_list movie_id kvs gs hsome, rfl, ?_, ?_⟩
        · intro hcase
          rcases hcase with habs | hempty
          · cases habs
          · simp only [Option.some.injEq, PyVal.dict.injEq] at hempty
            exact absurd hempty hne
        · intro kvs2 hk
          injection hk with hk2
          injection hk2 with hk3
          subst hk3
          refine ⟨?_, ?_, ?_⟩
          · intro ht
            simp [extractTitle, ht, pyStr]
          · intro hv
            simp [extractVote, hv]
          · intro hg0
            rw [hg0] at hsome
            cases hsome

/-- Witness for C8: the empty document yields the all-defaults row. -/
theorem transform_total_on_shapes_witness :
    ∃ row, makeMovieRow 9 (some (PyVal.dict [])) = .ok row ∧ row.id = 9 ∧
      ((some (PyVal.dict []) = Option.none ∨
          some (PyVal.dict []) = some (PyVal.dict [])) → row = defaultRow 9) ∧
      (∀ kvs, some (PyVal.dict []) = some (PyVal.dict kvs) →
        (dictGet kvs "title" = Option.none → row.title = "") ∧
        (dictGet kvs "vote_average" = Option.none →
          row.vote_average = Option.none) ∧
        (dictGet kvs "genres" = Option.none →
          row.genres = [] ∧ row.is_action = false)) :=
  transform_total_on_shapes 9 (some (PyVal.dict [])) (Or.inr (Or.inl rfl))

/-! ### Claim C1 -/

/-- C1 counterexample: the empty document is a returned record, yet
`get_movie_data` emits no row for the identifier and reports it as failed —
`if not api_data:` treats the falsy empty dict like an absent record. -/
theorem empty_record_routed_to_failure :
    (fun _ : Int => some (PyVal.dict [])) 1 = some (PyVal.dict []) ∧
    getMovieData (fun _ : Int => some (PyVal.dict [])) 1 =
      .ok (Option.none, 1) :=
  ⟨rfl, rfl⟩

/-- C1 (amended): a fetch result that is absent or falsy (`None` or an empty
document) routes the identifier to the failure side with no row; a truthy
(non-empty) record on which the transform succeeds always yields exactly the
transformed row for that identifier, and the identifier is not failed. -/
theorem row_emission_vs_failure (fetch : Int → Option PyVal) (i : Int) :
    (pyFalsy (fetch i) = true → getMovieData fetch i = .ok (Option.none, i)) ∧
    (∀ d row, fetch i = some d → pyTruthy d = true →
      makeMovieRow i (some d) = .ok row →
      getMovieData fetch i = .ok (some row, i)) := by
  constructor
  · intro hf
    simp only [getMovieData, hf, if_true]
  · intro d row hd htr hrow
    have hf : pyFalsy (fetch i) = false := by simp [pyFalsy, hd, htr]
    have hstep : getMovieData fetch i =
        Except.map (fun row => (some row, i)) (makeMovieRow i (fetch i)) := by
      simp [getMovieData, hf]
    rw [hstep, hd, hrow]
    rfl

/-- Witness for C1 (amended): a one-field truthy document yields its row; an
absent fetch result yields a failure entry. -/
theorem row_emission_vs_failure_witness :
    getMovieData (fun _ : Int => some (PyVal.dict [("a", PyVal.int 1)])) 1 =
      .ok (some (MovieRow.mk 1 "" Option.none [] false), 1) ∧
    getMovieData (fun _ : Int => Option.none) 2 = .ok (Option.none, 2) :=
  ⟨(row_emission_vs_failure
        (fun _ : Int => some (PyVal.dict [("a", PyVal.int 1)])) 1).2
      (PyVal.dict [("a", PyVal.int 1)])
      (MovieRow.mk 1 "" Option.none [] false) rfl rfl rfl,
    (row_emission_vs_failure (fun _ : Int => Option.none) 2).1 rfl⟩

/-! ### Claim C2 -/

/-- C2 counterexample: a run whose input produced no valid identifiers (here
one blank-skipped row) returns early — no summary is emitted even though the
skip count is nonzero. -/
theorem no_valid_ids_run_skips_summary :
    mainRun [] [("", 2, "blank")] (fun _ : Int => Option.none) [] 1 =
      .ok Option.none :=
  rfl

/-- C2 (amended): every run that finds at least one valid identifier and
whose tasks all complete normally emits the final summary — with the
processed/failed/skipped counts, the elapsed time and the throughput (zero
when elapsed is nonpositive) — even when the failure count is nonzero; a run
with zero successful rows completes and merely skips the report artifact.  A
run that finds no valid identifiers instead exits early without a summary. -/
theorem summary_emitted_on_dispatch (movie_ids : List Int)
    (skipped_rows : List (String × Nat × String))
    (fetch : Int → Option PyVal) (completionOrder : List Int)
    (elapsedRaw : ℚ) (hne : movie_ids ≠ []) (rows : List MovieRow)
    (failed : List Int)
    (hc : collectResults fetch completionOrder = .ok (rows, failed)) :
    ∃ s, mainRun movie_ids skipped_rows fetch completionOrder elapsedRaw =
        .ok (some s) ∧
      s.processed = rows.length ∧ s.failed = failed.length ∧
      s.skipped = skipped_rows.length ∧ s.elapsed = max elapsedRaw 0 ∧
      s.rate = (if 0 < max elapsedRaw 0 then
          (movie_ids.length : ℚ) / max elapsedRaw 0 else 0) ∧
      (rows.isEmpty = true → s.excelWritten = false) := by
  have hie : movie_ids.isEmpty = false := by
    cases movie_ids with
    | nil => exact absurd rfl hne
    | cons a t => rfl
  have hrun : mainRun movie_ids skipped_rows fetch completionOrder elapsedRaw =
      .ok (some (RunSummary.mk rows.length failed.length skipped_rows.length
        (!rows.isEmpty) (max elapsedRaw 0)
        (if 0 < max elapsedRaw 0 then
          (movie_ids.length : ℚ) / max elapsedRaw 0 else 0))) := by
    unfold mainRun
    rw [hie, if_neg Bool.false_ne_true, hc]
  refine ⟨_, hrun, rfl, rfl, rfl, rfl, rfl, ?_⟩
  intro h
  simp [h]

/-- Witness for C2 (amended): one valid identifier whose fetch fails — zero
rows, the artifact write is skipped, and the summary is still produced. -/
theorem summary_emitted_on_dispatch_witness :
    ∃ s, mainRun [1] [] (fun _ : Int => Option.none) [1] 1 = .ok (some s) ∧
      s.processed = ([] : List MovieRow).length ∧
      s.failed = [(1 : Int)].length ∧
      s.skipped = ([] : List (String × Nat × String)).length ∧
      s.elapsed = max (1 : ℚ) 0 ∧
      s.rate = (if 0 < max (1 : ℚ) 0 then
          (([1] : List Int).length : ℚ) / max (1 : ℚ) 0 else 0) ∧
      (([] : List MovieRow).isEmpty = true → s.excelWritten = false) :=
  summary_emitted_on_dispatch [1] [] (fun _ : Int => Option.none) [1] 1
    (List.cons_ne_nil 1 []) [] [1] rfl

/-! ### Claim C6 -/

/-- C6: whatever the completion order of the concurrently dispatched tasks,
the rows handed to reporting are sorted ascending by identifier, and neither
their contents nor their order depends on the completion order. -/
theorem rows_sorted_and_order_independent (fetch : Int → Option PyVal)
    (ids order₁ order₂ : List Int)
    (h₁ : order₁.Perm ids) (h₂ : order₂.Perm ids)
    (rows₁ : List MovieRow) (failed₁ : List Int)
    (rows₂ : List MovieRow) (failed₂ : List Int)
    (hc₁ : collectResults fetch order₁ = .ok (rows₁, failed₁))
    (hc₂ : collectResults fetch order₂ = .ok (rows₂, failed₂)) :
    (sortRows rows₁).Sorted (fun a b => a.id ≤ b.id) ∧
    sortRows rows₁ = sortRows rows₂ := by
  obtain ⟨hr₁, -, -⟩ := collectResults_ok_spec fetch order₁ rows₁ failed₁ hc₁
  obtain ⟨hr₂, -, -⟩ := collectResults_ok_spec fetch order₂ rows₂ failed₂ hc₂
  have hperm : rows₁.Perm rows₂ := by
    rw [hr₁, hr₂]
    exact (h₁.trans h₂.symm).filterMap _
  have hs₁ : (sortRows rows₁).Sorted (fun a b => a.id ≤ b.id) := by
    rw [sortRows_eq]
    exact List.sorted_insertionSort _ _
  have hs₂ : (sortRows rows₂).Sorted (fun a b => a.id ≤ b.id) := by
    rw [sortRows_eq]
    exact List.sorted_insertionSort _ _
  refine ⟨hs₁, ?_⟩
  apply eq_of_perm_of_sorted_of_keyUnique _ _ ?_ hs₁ hs₂ ?_
  · rw [sortRows_eq, sortRows_eq]
    exact (List.perm_insertionSort _ _).trans
      (hperm.trans (List.perm_insertionSort _ _).symm)
  · intro a ha b hb hab
    have ha' : a ∈ rows₁ := by
      rw [sortRows_eq] at ha
      exact (List.mem_insertionSort _).mp ha
    have hb' : b ∈ rows₂ := by
      rw [sortRows_eq] at hb
      exact (List.mem_insertionSort _).mp hb
    rw [hr₁] at ha'
    rw [hr₂] at hb'
    obtain ⟨ia, -, hta⟩ := List.mem_filterMap.mp ha'
    obtain ⟨ib, -, htb⟩ := List.mem_filterMap.mp hb'
    have hia : a.id = ia := taskRow_id fetch ia a hta
    have hib : b.id = ib := taskRow_id fetch ib b htb
    have hii : ia = ib := by rw [← hia, ← hib, hab]
    rw [hii] at hta
    rw [hta] at htb
    exact Option.some.inj htb

/-- Witness for C6: ids \x7b1, 2\x7d where only 1 succeeds, dispatched in two
opposite completion orders, sort to the same singleton row list. -/
theorem rows_sorted_and_order_independent_witness :
    (sortRows [MovieRow.mk 1 "" Option.none [] false]).Sorted
      (fun a b => a.id ≤ b.id) ∧
    sortRows [MovieRow.mk 1 "" Option.none [] false] =
      sortRows [MovieRow.mk 1 "" Option.none [] false] :=
  rows_sorted_and_order_independent
    (fun i : Int => if i = 1 then some (PyVal.dict [("a", PyVal.int 1)])
      else Option.none)
    [2, 1] [1, 2] [2, 1] (by decide) (by decide)
    [MovieRow.mk 1 "" Option.none [] false] [2]
    [MovieRow.mk 1 "" Option.none [] false] [2]
    rfl rfl

/-! ### Claim C10 -/

/-- C10: a completed dispatch partitions the submitted identifiers exactly —
the emitted rows' id fields together with the failed-identifiers list form a
permutation of the submitted sequence, every emitted row is the result of the
task for its own identifier, and (for deduplicated input) the two containers
are disjoint. -/
theorem dispatcher_partitions_ids (fetch : Int → Option PyVal)
    (order : List Int) (rows : List MovieRow) (failed : List Int)
    (hc : collectResults fetch order = .ok (rows, failed)) :
    ((rows.map MovieRow.id) ++ failed).Perm order ∧
    (∀ r ∈ rows, getMovieData fetch r.id = .ok (some r, r.id)) ∧
    (order.Nodup → ∀ i ∈ failed, i ∉ rows.map MovieRow.id) := by
  obtain ⟨hr, hf, hall⟩ := collectResults_ok_spec fetch order rows failed hc
  have hperm : ((rows.map MovieRow.id) ++ failed).Perm order := by
    rw [hr, hf, map_id_filterMap_taskRow]
    exact filters_partition_perm fetch order hall
  refine ⟨hperm, ?_, ?_⟩
  · intro r hrr
    rw [hr] at hrr
    obtain ⟨i, -, hti⟩ := List.mem_filterMap.mp hrr
    have hid : r.id = i := taskRow_id fetch i r hti
    rw [hid]
    exact taskRow_eq_ok fetch i r hti
  · intro hnd i hif hmem
    have hn : ((rows.map MovieRow.id) ++ failed).Nodup :=
      hperm.nodup_iff.mpr hnd
    rw [List.nodup_append] at hn
    exact hn.2.2 hmem hif

/-- Witness for C10: two submitted identifiers, both failing, are exactly the
failed list and produce no rows. -/
theorem dispatcher_partitions_ids_witness :
    ((([] : List MovieRow).map MovieRow.id) ++ [1, 2]).Perm [1, 2] ∧
    (∀ r ∈ ([] : List MovieRow),
      getMovieData (fun _ : Int => Option.none) r.id = .ok (some r, r.id)) ∧
    (([1, 2] : List Int).Nodup →
      ∀ i ∈ ([1, 2] : List Int), i ∉ ([] : List MovieRow).map MovieRow.id) :=
  dispatcher_partitions_ids (fun _ : Int => Option.none) [1, 2] [] [1, 2] rfl
